import Mathlib

/-!
Verification of the GaussianLib core matrix algebra (Matrix.h, SparseMatrix4.h,
Inverse.h, Vector2.h) by a shallow embedding into Lean.

Conventions of the embedding:
- A dense `Matrix<T, Rows, Cols>` is modelled at the level of its 2D accessor
  `operator()(row, col)` as a function `Fin Rows → Fin Cols → T`; all the
  algebraic operations of the source read and write elements only through this
  accessor, so the storage-order macro (`GS_MATRIX_COLUMN_MAJOR`) is invisible
  to them.  The in-place `Transpose` member is the one operation written
  directly against the flat buffer `m_`, so it is modelled separately on a flat
  buffer `ℕ → T` together with the default (row-major) index map
  `(r, c) ↦ r*Cols + c`.
- A `SparseMatrix4T<T>` in the default configuration (no `GS_ROW_VECTORS`,
  `rowsSparse = 3`, `columnsSparse = 4`) is modelled through its accessor as a
  function `Fin 3 → Fin 4 → T`.
- Fallible routines taking an output parameter by reference
  (`bool Inverse(M& inv, const M& m)`) are modelled as functions from the
  initial contents of the output parameter and the input to a pair
  `Bool × M` (success flag, final contents of the output parameter).
- Possibly-uninitialized storage (the default constructors and the
  `UninitializeTag` path) is modelled with `Option`: `none` stands for an
  indeterminate (uninitialized) element, `some v` for a written value `v`.
- Scalar arithmetic of the numeric claims is carried out over `ℚ`, an exact
  field, as the claims about exact identities require.
-/

namespace Gs

/-- Dense `Matrix<T, Rows, Cols>` (Matrix.h), viewed through its 2D accessor
`operator()(row, col)`. -/
abbrev Matrix (T : Type) (Rows Cols : ℕ) : Type := Fin Rows → Fin Cols → T

/-- Matrix multiply, Matrix.h lines 231-247: `result(r, c)` starts at `T(0)`
and accumulates `lhs(r, i)*rhs(i, c)` for `i = 0 .. ColsRows-1`; over a
commutative ring the accumulation loop computes exactly this sum. -/
def matMul {R K C : ℕ} (lhs : Matrix ℚ R K) (rhs : Matrix ℚ K C) :
    Matrix ℚ R C :=
  fun r c => ∑ i : Fin K, lhs r i * rhs i c

/-- `Matrix::LoadIdentity` / `Identity` (Matrix.h lines 158-172): every entry
`(r, c)` is assigned `r == c ? T(1) : T(0)`. -/
def identityMat (N : ℕ) : Matrix ℚ N N :=
  fun r c => if r = c then 1 else 0

/-- `Matrix::Transposed` (Matrix.h lines 174-184): `result(c, r) = (*this)(r, c)`
for every row `r` and column `c`; every entry of the `Cols × Rows` result is
written exactly once by the loop. -/
def transposed {T : Type} {R C : ℕ} (A : Matrix T R C) : Matrix T C R :=
  fun c r => A r c

/-- The all-zero matrix, i.e. the contents produced by `Matrix::Reset`
(Matrix.h lines 152-156). -/
def zeroMat (R C : ℕ) : Matrix ℚ R C := fun _ _ => 0

/-- Element value written by the `Matrix()` default constructor
(Matrix.h lines 87-92): it calls `Reset()` (zero-fill) exactly when
`GS_ENABLE_AUTO_INIT` is defined, and otherwise leaves the buffer
uninitialized.  The flag is the `autoInit` parameter; `none` models an
uninitialized element. -/
def matrixDefaultElem (autoInit : Bool) : Option ℚ :=
  if autoInit then some 0 else none

/-- Element value written by the `SparseMatrix4T()` default constructor
(SparseMatrix4.h lines 111-116): it calls `Reset()` (zero-fill) exactly when
`GS_ENABLE_AUTO_INIT` is NOT defined (`#ifndef`), and otherwise leaves the
buffer uninitialized. -/
def sparseDefaultElem (autoInit : Bool) : Option ℚ :=
  if autoInit then none else some 0

/-- Generic NxN `Inverse` (Inverse.h lines 333-340): the body of the algorithm
is commented out and the function unconditionally returns `false`, writing
nothing to `inv`.  `N` is the static size the template was instantiated at. -/
def inverseGeneric (N : ℕ) (inv m : Matrix ℚ N N) : Bool × Matrix ℚ N N :=
  (false, inv)

/-- `Vector2T<T>` (Vector2.h), as its pair of components `(x, y)`. -/
abbrev Vector2 : Type := ℚ × ℚ

/-- `Vector2T::operator /=` (Vector2.h lines 77-82): component-wise division. -/
def vec2DivAssign (lhs rhs : Vector2) : Vector2 :=
  (lhs.1 / rhs.1, lhs.2 / rhs.2)

/-- `Vector2T::operator *=` (Vector2.h lines 70-75): component-wise product. -/
def vec2MulAssign (lhs rhs : Vector2) : Vector2 :=
  (lhs.1 * rhs.1, lhs.2 * rhs.2)

/-- Global `operator / (Vector2T, Vector2T)` (Vector2.h lines 191-196): the
body copies `lhs` and then applies `result *= rhs` (not `/=`), so it computes
the component-wise product. -/
def vec2Div (lhs rhs : Vector2) : Vector2 :=
  vec2MulAssign lhs rhs

/-- Global `operator * (Vector2T, Vector2T)` (Vector2.h lines 184-189). -/
def vec2Mul (lhs rhs : Vector2) : Vector2 :=
  vec2MulAssign lhs rhs

/-- `SparseMatrix4T<T>` (SparseMatrix4.h) in the default configuration
(`GS_ROW_VECTORS` not defined): `rowsSparse = 3`, `columnsSparse = 4`, viewed
through its accessor `operator()(row, col)` with `row < 3`, `col < 4`.  The
4th row of the represented 4x4 matrix is implicitly `(0, 0, 0, 1)`. -/
abbrev SparseMat (T : Type) : Type := Fin 3 → Fin 4 → T

/-- The zero-filled sparse matrix, contents after `SparseMatrix4T::Reset`
(SparseMatrix4.h lines 260-264). -/
def sparseZero : SparseMat ℚ := fun _ _ => 0

/-- `SparseMatrix4T::LoadIdentity` (SparseMatrix4.h lines 266-272): every
stored entry `(r, c)` is assigned `r == c ? T(1) : T(0)`. -/
def sparseIdentity : SparseMat ℚ :=
  fun r c => if (r : ℕ) = (c : ℕ) then 1 else 0

/-- Sparse `operator *` (SparseMatrix4.h lines 383-422, default `#else`
branch): for each stored entry, `result(r, c)` accumulates
`lhs(r, i)*rhs(i, c)` for `i < rowsSparse = 3` only, and afterwards the single
correction `result(r, columnsSparse-1) += lhs(r, columnsSparse-1)` is applied
once per row, adding the left operand's translation entry to the last
column. -/
def sparseMul (lhs rhs : SparseMat ℚ) : SparseMat ℚ :=
  fun r c =>
    (∑ i : Fin 3, lhs r i.castSucc * rhs i c) +
      (if c = 3 then lhs r 3 else 0)

/-- Materialization of a sparse matrix to a full 4x4 matrix by appending the
implicit row `(0, 0, 0, 1)` (spec §8 / claim C1; the source documents this
layout in the header comment of SparseMatrix4.h). -/
def toMat4 (S : SparseMat ℚ) : Matrix ℚ 4 4 :=
  ![S 0, S 1, S 2, ![0, 0, 0, 1]]

/-- Modelled from the spec: `Determinant` for 2x2 matrices.  The header
Determinant.h is not under src/ (only its callers in Inverse.h are); spec §4.1
gives the closed form `ad - bc`. -/
def det2 (m : Matrix ℚ 2 2) : ℚ :=
  m 0 0 * m 1 1 - m 0 1 * m 1 0

/-- Modelled from the spec: `Determinant` for 3x3 matrices.  Determinant.h is
not under src/; spec §4.1 gives the closed form
`m00(m11·m22 − m21·m12) − m01(m10·m22 − m20·m12) + m02(m10·m21 − m20·m11)`. -/
def det3 (m : Matrix ℚ 3 3) : ℚ :=
  m 0 0 * (m 1 1 * m 2 2 - m 2 1 * m 1 2) -
    m 0 1 * (m 1 0 * m 2 2 - m 2 0 * m 1 2) +
    m 0 2 * (m 1 0 * m 2 1 - m 2 0 * m 1 1)

/-- Modelled from the spec: `Determinant` for 4x4 matrices.  Determinant.h is
not under src/; spec §4.1 prescribes the full 4x4 cofactor (Laplace)
expansion, written here along the first row with 3x3 minors expanded in the
§4.1 closed form. -/
def det4 (m : Matrix ℚ 4 4) : ℚ :=
  m 0 0 * (m 1 1 * (m 2 2 * m 3 3 - m 3 2 * m 2 3) -
           m 1 2 * (m 2 1 * m 3 3 - m 3 1 * m 2 3) +
           m 1 3 * (m 2 1 * m 3 2 - m 3 1 * m 2 2)) -
    m 0 1 * (m 1 0 * (m 2 2 * m 3 3 - m 3 2 * m 2 3) -
             m 1 2 * (m 2 0 * m 3 3 - m 3 0 * m 2 3) +
             m 1 3 * (m 2 0 * m 3 2 - m 3 0 * m 2 2)) +
    m 0 2 * (m 1 0 * (m 2 1 * m 3 3 - m 3 1 * m 2 3) -
             m 1 1 * (m 2 0 * m 3 3 - m 3 0 * m 2 3) +
             m 1 3 * (m 2 0 * m 3 1 - m 3 0 * m 2 1)) -
    m 0 3 * (m 1 0 * (m 2 1 * m 3 2 - m 3 1 * m 2 2) -
             m 1 1 * (m 2 0 * m 3 2 - m 3 0 * m 2 2) +
             m 1 2 * (m 2 0 * m 3 1 - m 3 0 * m 2 1))

/-- Modelled from the spec: `Determinant` for SparseMatrix4T.  Determinant.h
is not under src/; spec §4.1 prescribes the same 3x3-style expansion over the
upper-left 3x3 block (the implicit 4th row contributes only the fixed cofactor
weight 1). -/
def detSparse (m : SparseMat ℚ) : ℚ :=
  m 0 0 * (m 1 1 * m 2 2 - m 2 1 * m 1 2) -
    m 0 1 * (m 1 0 * m 2 2 - m 2 0 * m 1 2) +
    m 0 2 * (m 1 0 * m 2 1 - m 2 0 * m 1 1)

/-- 2x2 `Inverse` (Inverse.h lines 343-361): on `d == 0` it returns `false`
before writing anything; otherwise `d = 1/d` and the four adjugate entries are
written. -/
def inverse2 (inv m : Matrix ℚ 2 2) : Bool × Matrix ℚ 2 2 :=
  if det2 m = 0 then (false, inv)
  else
    let d : ℚ := 1 / det2 m
    (true,
      ![![d * m 1 1, d * (-(m 0 1))],
        ![d * (-(m 1 0)), d * m 0 0]])

/-- 3x3 `Inverse` (Inverse.h lines 364-387), entries transcribed exactly as
the source writes them (the source assigns `inv(row, col)` entry by entry;
here they are collected row by row). -/
def inverse3 (inv m : Matrix ℚ 3 3) : Bool × Matrix ℚ 3 3 :=
  if det3 m = 0 then (false, inv)
  else
    let d : ℚ := 1 / det3 m
    (true,
      ![![d * (m 1 1 * m 2 2 - m 2 1 * m 1 2),
          d * (m 1 1 * m 0 2 - m 0 1 * m 2 2),
          d * (m 0 1 * m 1 2 - m 1 1 * m 0 2)],
        ![d * (m 2 0 * m 1 2 - m 1 0 * m 2 2),
          d * (m 0 0 * m 2 2 - m 2 0 * m 0 2),
          d * (m 1 0 * m 0 2 - m 0 0 * m 1 2)],
        ![d * (m 1 0 * m 2 1 - m 2 0 * m 1 1),
          d * (m 0 0 * m 1 1 - m 1 0 * m 0 1),
          d * (m 0 0 * m 1 1 - m 1 0 * m 0 1)]])

/-- 4x4 `Inverse` (Inverse.h lines 390-420), entries transcribed exactly as
the source writes them, collected row by row. -/
def inverse4 (inv m : Matrix ℚ 4 4) : Bool × Matrix ℚ 4 4 :=
  if det4 m = 0 then (false, inv)
  else
    let d : ℚ := 1 / det4 m
    (true,
      ![![d * (m 1 1 * (m 2 2 * m 3 3 - m 3 2 * m 2 3) + m 2 1 * (m 3 2 * m 1 3 - m 1 2 * m 3 3) + m 3 1 * (m 1 2 * m 2 3 - m 2 2 * m 1 3)),
          d * (m 2 1 * (m 0 2 * m 3 3 - m 3 2 * m 0 3) + m 3 1 * (m 2 2 * m 0 3 - m 0 2 * m 2 3) + m 0 1 * (m 3 2 * m 2 3 - m 2 2 * m 3 3)),
          d * (m 3 1 * (m 0 2 * m 1 3 - m 1 2 * m 0 3) + m 0 1 * (m 1 2 * m 3 3 - m 3 2 * m 1 3) + m 1 1 * (m 3 2 * m 0 3 - m 0 2 * m 3 3)),
          d * (m 0 1 * (m 2 2 * m 1 3 - m 1 2 * m 2 3) + m 1 1 * (m 0 2 * m 2 3 - m 2 2 * m 0 3) + m 2 1 * (m 1 2 * m 0 3 - m 0 2 * m 1 3))],
        ![d * (m 1 2 * (m 2 0 * m 3 3 - m 3 0 * m 2 3) + m 2 2 * (m 3 0 * m 1 3 - m 1 0 * m 3 3) + m 3 2 * (m 1 0 * m 2 3 - m 2 0 * m 1 3)),
          d * (m 2 2 * (m 0 0 * m 3 3 - m 3 0 * m 0 3) + m 3 2 * (m 2 0 * m 0 3 - m 0 0 * m 2 3) + m 0 2 * (m 3 0 * m 2 3 - m 2 0 * m 3 3)),
          d * (m 3 2 * (m 0 0 * m 1 3 - m 1 0 * m 0 3) + m 0 2 * (m 1 0 * m 3 3 - m 3 0 * m 1 3) + m 1 2 * (m 3 0 * m 0 3 - m 0 0 * m 3 3)),
          d * (m 0 2 * (m 2 0 * m 1 3 - m 1 0 * m 2 3) + m 1 2 * (m 0 0 * m 2 3 - m 2 0 * m 0 3) + m 2 2 * (m 1 0 * m 0 3 - m 0 0 * m 1 3))],
        ![d * (m 1 3 * (m 2 0 * m 3 1 - m 3 0 * m 2 1) + m 2 3 * (m 3 0 * m 1 1 - m 1 0 * m 3 1) + m 3 3 * (m 1 0 * m 2 1 - m 2 0 * m 1 1)),
          d * (m 2 3 * (m 0 0 * m 3 1 - m 3 0 * m 0 1) + m 3 3 * (m 2 0 * m 0 1 - m 0 0 * m 2 1) + m 0 3 * (m 3 0 * m 2 1 - m 2 0 * m 3 1)),
          d * (m 3 3 * (m 0 0 * m 1 1 - m 1 0 * m 0 1) + m 0 3 * (m 1 0 * m 3 1 - m 3 0 * m 1 1) + m 1 3 * (m 3 0 * m 0 1 - m 0 0 * m 3 1)),
          d * (m 0 3 * (m 2 0 * m 1 1 - m 1 0 * m 2 1) + m 1 3 * (m 0 0 * m 2 1 - m 2 0 * m 0 1) + m 2 3 * (m 1 0 * m 0 1 - m 0 0 * m 1 1))],
        ![d * (m 1 0 * (m 3 1 * m 2 2 - m 2 1 * m 3 2) + m 2 0 * (m 1 1 * m 3 2 - m 3 1 * m 1 2) + m 3 0 * (m 2 1 * m 1 2 - m 1 1 * m 2 2)),
          d * (m 2 0 * (m 3 1 * m 0 2 - m 0 1 * m 3 2) + m 3 0 * (m 0 1 * m 2 2 - m 2 1 * m 0 2) + m 0 0 * (m 2 1 * m 3 2 - m 3 1 * m 2 2)),
          d * (m 3 0 * (m 1 1 * m 0 2 - m 0 1 * m 1 2) + m 0 0 * (m 3 1 * m 1 2 - m 1 1 * m 3 2) + m 1 0 * (m 0 1 * m 3 2 - m 3 1 * m 0 2)),
          d * (m 0 0 * (m 1 1 * m 2 2 - m 2 1 * m 1 2) + m 1 0 * (m 2 1 * m 0 2 - m 0 1 * m 2 2) + m 2 0 * (m 0 1 * m 1 2 - m 1 1 * m 0 2))]])

/-- SparseMatrix4T `Inverse` (Inverse.h lines 423-452): writes only the 12
stored entries (the commented-out `inv(3, *)` entries are structurally
`0, 0, 0, 1`); on `d == 0` it returns `false` before writing anything. -/
def inverseSparse (inv m : SparseMat ℚ) : Bool × SparseMat ℚ :=
  if detSparse m = 0 then (false, inv)
  else
    let d : ℚ := 1 / detSparse m
    (true,
      ![![d * (m 1 1 * m 2 2 + m 2 1 * (-(m 1 2))),
          d * (m 2 1 * m 0 2 + m 0 1 * (-(m 2 2))),
          d * (m 0 1 * m 1 2 + m 1 1 * (-(m 0 2))),
          d * (m 0 1 * (m 2 2 * m 1 3 - m 1 2 * m 2 3) + m 1 1 * (m 0 2 * m 2 3 - m 2 2 * m 0 3) + m 2 1 * (m 1 2 * m 0 3 - m 0 2 * m 1 3))],
        ![d * (m 1 2 * m 2 0 + m 2 2 * (-(m 1 0))),
          d * (m 2 2 * m 0 0 + m 0 2 * (-(m 2 0))),
          d * (m 0 2 * m 1 0 + m 1 2 * (-(m 0 0))),
          d * (m 0 2 * (m 2 0 * m 1 3 - m 1 0 * m 2 3) + m 1 2 * (m 0 0 * m 2 3 - m 2 0 * m 0 3) + m 2 2 * (m 1 0 * m 0 3 - m 0 0 * m 1 3))],
        ![d * (m 1 0 * m 2 1 - m 2 0 * m 1 1),
          d * (m 2 0 * m 0 1 - m 0 0 * m 2 1),
          d * (m 0 0 * m 1 1 - m 1 0 * m 0 1),
          d * (m 0 3 * (m 2 0 * m 1 1 - m 1 0 * m 2 1) + m 1 3 * (m 0 0 * m 2 1 - m 2 0 * m 0 1) + m 2 3 * (m 1 0 * m 0 1 - m 0 0 * m 1 1))]])

/-- `SparseMatrix4T::MakeInverse` (SparseMatrix4.h lines 314-318): copies
itself into `in` and calls `Gs::Inverse(*this, in)`, so the output parameter's
initial contents are the matrix itself. -/
def makeInverseSparse (m : SparseMat ℚ) : Bool × SparseMat ℚ :=
  inverseSparse m m

/-- `SparseMatrix4T::Inverse` (SparseMatrix4.h lines 307-312): copies itself,
calls `MakeInverse` on the copy and returns the copy regardless of success. -/
def inverseSparseVal (m : SparseMat ℚ) : SparseMat ℚ :=
  (makeInverseSparse m).2

/-- `SparseMatrix4T::Transposed` (SparseMatrix4.h lines 281-294): the result
is a full `Matrix<T, 4, 4>` built as `TransposedType result;` (default
constructor, so its elements are `matrixDefaultElem autoInit`), then
`result(c, r) = (*this)(r, c)` for `r < rowsSparse = 3`, `c < 4` — which
writes position `(a, b)` of the result exactly when `b < 3`.  The trailing
loop `result(i, ThisType::rowsSparse);` only evaluates the accessor and
discards the reference; it writes nothing, so the 4th column keeps the
constructor contents. -/
def sparseTransposed (autoInit : Bool) (S : SparseMat ℚ) :
    Fin 4 → Fin 4 → Option ℚ :=
  fun a b =>
    if h : (b : ℕ) < 3 then some (S ⟨b, h⟩ a)
    else matrixDefaultElem autoInit

/-- `std::swap` of two positions of a flat buffer, as used by
`Matrix::Transpose`. -/
def swapAt {T : Type} (g : ℕ → T) (p q : ℕ) : ℕ → T :=
  fun k => if k = p then g q else if k = q then g p else g k

/-- The first `cnt` iterations of the inner loop of `Matrix::Transpose`
(Matrix.h lines 190-198) at outer index `i`: for `j = 1, 2, ...` the source
swaps `m_[i*(Cols + 1) + j]` and `m_[(j + i)*Cols + i]`. -/
def innerAux {T : Type} (N i cnt : ℕ) (g : ℕ → T) : ℕ → T :=
  (List.range' 1 cnt).foldl
    (fun h j => swapAt h (i * (N + 1) + j) ((j + i) * N + i)) g

/-- The full inner loop of `Matrix::Transpose` at outer index `i`: the loop
condition is `j + i < Cols` with `j` starting at 1, i.e. `N - i - 1`
iterations. -/
def transposeInner {T : Type} (N i : ℕ) (g : ℕ → T) : ℕ → T :=
  innerAux N i (N - i - 1) g

/-- The first `m` iterations of the outer loop of `Matrix::Transpose`. -/
def outerAux {T : Type} (N m : ℕ) (g : ℕ → T) : ℕ → T :=
  (List.range m).foldl (fun h i => transposeInner N i h) g

/-- `Matrix::Transpose` (Matrix.h lines 186-200), acting on the flat buffer
`m_` of a square `N × N` matrix: the outer loop condition is `i + 1 < Cols`,
i.e. `N - 1` iterations.  Under the default (row-major) layout the element
`(r, c)` lives at flat index `r*N + c`. -/
def transposeInPlace {T : Type} (N : ℕ) (g : ℕ → T) : ℕ → T :=
  outerAux N (N - 1) g

end Gs

/-! ## Claims C5, C8, C9, C10 -/

namespace Gs

/-- C8: for every Matrix `A` of every static shape `Rows × Cols`,
`A.Transposed().Transposed()` equals `A` element-for-element. -/
theorem transposed_transposed {T : Type} {R C : ℕ} (A : Matrix T R C) :
    transposed (transposed A) = A :=
  rfl

/-- C8 witness at a concrete matrix. -/
theorem transposed_transposed_witness :
    transposed (transposed (identityMat 2)) = identityMat 2 :=
  transposed_transposed (identityMat 2)

/-- C5: for every square static size `N` outside `{2,3,4}` and every input `m`
of that size, the generic free `Inverse(inv, m)` returns `false` and does not
modify `inv`.  (The body of the generic template in Inverse.h is commented out
and returns `false` unconditionally; overload resolution selects it exactly
for the sizes with no closed-form specialization.) -/
theorem inverseGeneric_fails (N : ℕ) (hN : N ∉ ({2, 3, 4} : Set ℕ))
    (inv m : Matrix ℚ N N) : inverseGeneric N inv m = (false, inv) :=
  rfl

/-- C5 witness: size 5, both arguments the zero matrix. -/
theorem inverseGeneric_fails_witness :
    5 ∉ ({2, 3, 4} : Set ℕ) ∧
      inverseGeneric 5 (zeroMat 5 5) (zeroMat 5 5) = (false, zeroMat 5 5) :=
  ⟨by norm_num, inverseGeneric_fails 5 (by norm_num) _ _⟩

/-- C9: under any single build configuration (value of `GS_ENABLE_AUTO_INIT`),
a default-constructed SparseMatrix4T zero-fills exactly when the flag is NOT
defined, a default-constructed Matrix zero-fills exactly when it IS defined,
and hence exactly one of the two leaves its elements uninitialized. -/
theorem defaultInit_mismatch (autoInit : Bool) :
    (sparseDefaultElem autoInit = some 0 ↔ autoInit = false) ∧
      (matrixDefaultElem autoInit = some 0 ↔ autoInit = true) ∧
      (sparseDefaultElem autoInit = none ↔ matrixDefaultElem autoInit ≠ none) := by
  cases autoInit <;> simp [sparseDefaultElem, matrixDefaultElem]

/-- C10 counterexample: the global `operator /` on Vector2 multiplies instead
of dividing: `(4,6) / (2,3)` evaluates to `(8,18)`, not the component-wise
quotient `(2,2)` that `operator /=` computes. -/
theorem vec2Div_multiplies :
    vec2Div (4, 6) (2, 3) = (8, 18) ∧
      vec2DivAssign (4, 6) (2, 3) = (2, 2) ∧
      vec2Div (4, 6) (2, 3) ≠ vec2DivAssign (4, 6) (2, 3) := by
  refine ⟨?_, ?_, ?_⟩ <;>
    norm_num [vec2Div, vec2MulAssign, vec2DivAssign, Prod.mk.injEq]

/-- C1: for every pair of sparse matrices S1, S2, materializing the sparse
product `S1*S2` to a full 4x4 matrix (appending the implicit row (0,0,0,1))
equals the dense 4x4 product of the materializations of S1 and S2 computed by
the generic Matrix multiply. -/
theorem sparseMul_refines_matMul (S1 S2 : SparseMat ℚ) :
    toMat4 (sparseMul S1 S2) = matMul (toMat4 S1) (toMat4 S2) := by
  funext r c
  fin_cases r <;> fin_cases c <;>
    simp [toMat4, sparseMul, matMul, Fin.sum_univ_four, Fin.sum_univ_three,
      show Fin.castSucc (0 : Fin 3) = (0 : Fin 4) from rfl,
      show Fin.castSucc (1 : Fin 3) = (1 : Fin 4) from rfl,
      show Fin.castSucc (2 : Fin 3) = (2 : Fin 4) from rfl,
      show ((0 : Fin 4) = 3) = False from by decide,
      show ((1 : Fin 4) = 3) = False from by decide,
      show ((2 : Fin 4) = 3) = False from by decide,
      show ((3 : Fin 4) = 3) = True from by decide]

/-- C2 evidence, at the failing input M = 3x3 identity: `Inverse` reports
success but the 3x3 formulas in the source are wrong (the `inv(2,1)` line
duplicates the `inv(2,2)` cofactor and `inv(0,1)` uses `m(1,1)` instead of
`m(2,1)`), so `M * Inverse(M)` is not the identity even though
`Determinant(M) = 1 ≠ 0`. -/
theorem inverse3_violates_inverse_property :
    det3 (identityMat 3) ≠ 0 ∧
      (inverse3 (zeroMat 3 3) (identityMat 3)).1 = true ∧
      matMul (identityMat 3) (inverse3 (zeroMat 3 3) (identityMat 3)).2 ≠
        identityMat 3 := by
  refine ⟨by norm_num [det3, identityMat, Fin.ext_iff], ?_, ?_⟩
  · norm_num [inverse3, det3, identityMat, Fin.ext_iff, Matrix.vecHead, Matrix.vecTail]
  · intro h
    have h21 := congrFun (congrFun h 2) 1
    norm_num [matMul, inverse3, det3, identityMat, Fin.sum_univ_three,
      Fin.ext_iff, Matrix.vecHead, Matrix.vecTail] at h21

/-- C3 evidence: `Determinant(I3) = 1` and `Inverse(I3)` succeeds, but the
matrix it writes is not the identity: its entry (2,1) is 1 (the source line
for `inv(2,1)` duplicates the `inv(2,2)` cofactor formula). -/
theorem inverse3_identity_not_identity :
    det3 (identityMat 3) = 1 ∧
      (inverse3 (zeroMat 3 3) (identityMat 3)).1 = true ∧
      (inverse3 (zeroMat 3 3) (identityMat 3)).2 2 1 = 1 ∧
      (inverse3 (zeroMat 3 3) (identityMat 3)).2 ≠ identityMat 3 := by
  refine ⟨by norm_num [det3, identityMat, Fin.ext_iff], ?_, ?_, ?_⟩
  · norm_num [inverse3, det3, identityMat, Fin.ext_iff, Matrix.vecHead, Matrix.vecTail]
  · norm_num [inverse3, det3, identityMat, Fin.ext_iff, Matrix.vecHead, Matrix.vecTail]
  · intro h
    have h21 := congrFun (congrFun h 2) 1
    norm_num [inverse3, det3, identityMat, Fin.ext_iff, Matrix.vecHead, Matrix.vecTail] at h21

/-- C4: whenever an inverse computation fails because the determinant is
exactly zero, the call returns `false` and the output is untouched: each free
`Inverse` overload (2x2, 3x3, 4x4, sparse) leaves the output parameter
element-wise unchanged, `MakeInverse` leaves the matrix unchanged, and
`Inverse()` by value returns a copy equal to the original. -/
theorem inverse_zero_det_leaves_output
    (o2 m2 : Matrix ℚ 2 2) (o3 m3 : Matrix ℚ 3 3) (o4 m4 : Matrix ℚ 4 4)
    (os ms : SparseMat ℚ)
    (h2 : det2 m2 = 0) (h3 : det3 m3 = 0) (h4 : det4 m4 = 0)
    (hs : detSparse ms = 0) :
    inverse2 o2 m2 = (false, o2) ∧
      inverse3 o3 m3 = (false, o3) ∧
      inverse4 o4 m4 = (false, o4) ∧
      inverseSparse os ms = (false, os) ∧
      makeInverseSparse ms = (false, ms) ∧
      inverseSparseVal ms = ms := by
  simp [inverse2, inverse3, inverse4, inverseSparse, makeInverseSparse,
    inverseSparseVal, h2, h3, h4, hs]

/-- C4 witness: all-zero matrices have determinant 0, and every inverse path
reports failure leaving the output unchanged. -/
theorem inverse_zero_det_leaves_output_witness :
    det2 (zeroMat 2 2) = 0 ∧ det3 (zeroMat 3 3) = 0 ∧
      det4 (zeroMat 4 4) = 0 ∧ detSparse sparseZero = 0 ∧
      (inverse2 (zeroMat 2 2) (zeroMat 2 2) = (false, zeroMat 2 2) ∧
        inverse3 (zeroMat 3 3) (zeroMat 3 3) = (false, zeroMat 3 3) ∧
        inverse4 (zeroMat 4 4) (zeroMat 4 4) = (false, zeroMat 4 4) ∧
        inverseSparse sparseZero sparseZero = (false, sparseZero) ∧
        makeInverseSparse sparseZero = (false, sparseZero) ∧
        inverseSparseVal sparseZero = sparseZero) :=
  ⟨by norm_num [det2, zeroMat], by norm_num [det3, zeroMat],
    by norm_num [det4, zeroMat], by norm_num [detSparse, sparseZero],
    inverse_zero_det_leaves_output _ _ _ _ _ _ _ _
      (by norm_num [det2, zeroMat]) (by norm_num [det3, zeroMat])
      (by norm_num [det4, zeroMat]) (by norm_num [detSparse, sparseZero])⟩

/-- C6 evidence: `SparseMatrix4T::Transposed` never writes the promoted 4th
column — the trailing statement `result(i, ThisType::rowsSparse);` discards
the reference — so for every sparse matrix S and under either setting of
`GS_ENABLE_AUTO_INIT`, the result's entry (3,3) is `some 0` (zero-filled
constructor) or `none` (uninitialized), never the claimed `some 1`; whereas
the transpose of the materialized 4x4 form has 1 there. -/
theorem sparseTransposed_missing_one (b : Bool) (S : SparseMat ℚ) :
    sparseTransposed b S 3 3 ≠ some 1 ∧ transposed (toMat4 S) 3 3 = 1 := by
  cases b <;>
    simp [sparseTransposed, matrixDefaultElem, transposed, toMat4,
      show ((((3 : Fin 4) : ℕ)) < 3) = False from by decide]

/-- Injectivity of the row-major index map `(r, c) ↦ r*N + c` for `c < N`. -/
theorem enc_inj {N r c r' c' : ℕ} (hc : c < N) (hc' : c' < N)
    (h : r * N + c = r' * N + c') : r = r' ∧ c = c' := by
  have hN : 0 < N := lt_of_le_of_lt (Nat.zero_le c) hc
  have hcc : c = c' := by
    have h1 := congrArg (fun x => x % N) h
    simp only [Nat.mul_comm _ N] at h1
    simpa [Nat.mul_add_mod, Nat.mod_eq_of_lt hc, Nat.mod_eq_of_lt hc'] using h1
  subst hcc
  have h2 : r * N = r' * N := by omega
  exact ⟨Nat.eq_of_mul_eq_mul_right hN h2, rfl⟩

/-- Unfolding one iteration of the inner loop of `Transpose`: iteration `cnt`
swaps the flat positions of the entries `(i, i+cnt+1)` and `(i+cnt+1, i)`. -/
theorem innerAux_succ {T : Type} (N i cnt : ℕ) (g : ℕ → T) :
    innerAux N i (cnt + 1) g =
      swapAt (innerAux N i cnt g) (i * N + (i + cnt + 1)) ((i + cnt + 1) * N + i) := by
  have h2 : i * (N + 1) + (1 + 1 * cnt) = i * N + (i + cnt + 1) := by ring
  have h3 : (1 + 1 * cnt + i) * N + i = (i + cnt + 1) * N + i := by ring_nf
  rw [innerAux, List.range'_concat, List.foldl_append]
  simp only [List.foldl_cons, List.foldl_nil]
  rw [h2, h3]
  rfl

/-- A position hit by none of the swaps of the inner loop is unchanged. -/
theorem innerAux_untouched {T : Type} (N i : ℕ) :
    ∀ (cnt : ℕ) (g : ℕ → T) (k : ℕ),
      (∀ c, i < c → c ≤ i + cnt → k ≠ i * N + c ∧ k ≠ c * N + i) →
      innerAux N i cnt g k = g k := by
  intro cnt
  induction cnt with
  | zero => intro g k _; rfl
  | succ cnt ih =>
    intro g k hk
    rw [innerAux_succ]
    have hks := hk (i + cnt + 1) (by omega) (by omega)
    rw [swapAt, if_neg hks.1, if_neg hks.2]
    exact ih g k (fun c h1 h2 => hk c h1 (by omega))

/-- After the inner loop at row `i`, position `(i, c)` (upper triangle) holds
the previous contents of position `(c, i)`; each pair is swapped exactly once
because the swap positions of distinct iterations are pairwise distinct. -/
theorem innerAux_fst {T : Type} (N i : ℕ) :
    ∀ (cnt : ℕ) (g : ℕ → T) (c : ℕ), i < c → c ≤ i + cnt → i + cnt < N →
      innerAux N i cnt g (i * N + c) = g (c * N + i) := by
  intro cnt
  induction cnt with
  | zero => intro g c h1 h2 _; omega
  | succ cnt ih =>
    intro g c h1 h2 hN
    rw [innerAux_succ]
    rcases Nat.lt_or_ge c (i + cnt + 1) with hlt | hge
    · have hci : c < N := by omega
      have hiN : i < N := by omega
      have haN : i + cnt + 1 < N := by omega
      have hp : i * N + c ≠ i * N + (i + cnt + 1) := by
        intro h; exact absurd (enc_inj hci haN h).2 (by omega)
      have hq : i * N + c ≠ (i + cnt + 1) * N + i := by
        intro h; exact absurd (enc_inj hci hiN h).1 (by omega)
      rw [swapAt, if_neg hp, if_neg hq]
      exact ih g c h1 (by omega) (by omega)
    · have hca : c = i + cnt + 1 := by omega
      subst hca
      rw [swapAt, if_pos rfl]
      refine innerAux_untouched N i cnt g _ (fun c' h1' h2' => ?_)
      have hiN : i < N := by omega
      have hcN' : c' < N := by omega
      constructor
      · intro h
        exact absurd (enc_inj hiN hcN' h).1 (by omega)
      · intro h
        exact absurd (enc_inj hiN hiN h).1 (by omega)

/-- After the inner loop at row `i`, position `(c, i)` (lower triangle) holds
the previous contents of position `(i, c)`. -/
theorem innerAux_snd {T : Type} (N i : ℕ) :
    ∀ (cnt : ℕ) (g : ℕ → T) (c : ℕ), i < c → c ≤ i + cnt → i + cnt < N →
      innerAux N i cnt g (c * N + i) = g (i * N + c) := by
  intro cnt
  induction cnt with
  | zero => intro g c h1 h2 _; omega
  | succ cnt ih =>
    intro g c h1 h2 hN
    rw [innerAux_succ]
    rcases Nat.lt_or_ge c (i + cnt + 1) with hlt | hge
    · have hci : c < N := by omega
      have hiN : i < N := by omega
      have haN : i + cnt + 1 < N := by omega
      have hp : c * N + i ≠ i * N + (i + cnt + 1) := by
        intro h; exact absurd (enc_inj hiN haN h).1 (by omega)
      have hq : c * N + i ≠ (i + cnt + 1) * N + i := by
        intro h; exact absurd (enc_inj hiN hiN h).1 (by omega)
      rw [swapAt, if_neg hp, if_neg hq]
      exact ih g c h1 (by omega) (by omega)
    · have hca : c = i + cnt + 1 := by omega
      subst hca
      have hiN : i < N := by omega
      have haN : i + cnt + 1 < N := by omega
      have hpq : (i + cnt + 1) * N + i ≠ i * N + (i + cnt + 1) := by
        intro h; exact absurd (enc_inj hiN haN h).1 (by omega)
      rw [swapAt, if_neg hpq, if_pos rfl]
      refine innerAux_untouched N i cnt g _ (fun c' h1' h2' => ?_)
      have hcN' : c' < N := by omega
      constructor
      · intro h
        exact absurd (enc_inj haN hcN' h).2 (by omega)
      · intro h
        exact absurd (enc_inj haN hiN h).1 (by omega)

theorem transposeInner_fst {T : Type} (N i c : ℕ) (g : ℕ → T)
    (hi : i < N) (hic : i < c) (hcN : c < N) :
    transposeInner N i g (i * N + c) = g (c * N + i) :=
  innerAux_fst N i (N - i - 1) g c hic (by omega) (by omega)

theorem transposeInner_snd {T : Type} (N i c : ℕ) (g : ℕ → T)
    (hi : i < N) (hic : i < c) (hcN : c < N) :
    transposeInner N i g (c * N + i) = g (i * N + c) :=
  innerAux_snd N i (N - i - 1) g c hic (by omega) (by omega)

theorem transposeInner_untouched {T : Type} (N i : ℕ) (g : ℕ → T) (k : ℕ)
    (hk : ∀ c, i < c → c < N → k ≠ i * N + c ∧ k ≠ c * N + i) :
    transposeInner N i g k = g k :=
  innerAux_untouched N i (N - i - 1) g k (fun c h1 h2 => hk c h1 (by omega))

theorem outerAux_succ {T : Type} (N m : ℕ) (g : ℕ → T) :
    outerAux N (m + 1) g = transposeInner N m (outerAux N m g) := by
  simp [outerAux, List.range_succ, List.foldl_append]

/-- Invariant of the outer loop of `Transpose`: after `m` iterations every
off-diagonal entry whose row or column index is below `m` has been swapped
with its mirror exactly once, and every other entry is unchanged. -/
theorem outer_spec {T : Type} (N : ℕ) (g : ℕ → T) :
    ∀ m, m ≤ N - 1 → ∀ r c, r < N → c < N →
      outerAux N m g (r * N + c) =
        if (r < m ∨ c < m) ∧ r ≠ c then g (c * N + r) else g (r * N + c) := by
  intro m
  induction m with
  | zero =>
    intro _ r c hr hc
    simp [outerAux]
  | succ m ih =>
    intro hm r c hr hc
    have hmN : m < N := by omega
    rw [outerAux_succ]
    by_cases hrc : r = c
    · subst hrc
      rw [transposeInner_untouched N m (outerAux N m g) _ (fun c' h1 h2 => ?_)]
      · rw [ih (by omega) r r hr hr]
        simp
      · constructor
        · intro h
          have := enc_inj hr (by omega : c' < N) h
          omega
        · intro h
          have := enc_inj hr hmN h
          omega
    · by_cases hr_m : r = m
      · subst hr_m
        rcases Nat.lt_or_ge r c with hc_gt | hc_lt
        · rw [transposeInner_fst N r c (outerAux N r g) hmN hc_gt hc]
          rw [ih (by omega) c r hc hr]
          have : ¬((c < r ∨ r < r) ∧ c ≠ r) := by omega
          rw [if_neg this, if_pos (by omega)]
        · have hclt : c < r := by omega
          rw [transposeInner_untouched N r (outerAux N r g) _ (fun c' h1 h2 => ?_)]
          · rw [ih (by omega) r c hr hc]
            rw [if_pos (by omega), if_pos (by omega)]
          · constructor
            · intro h
              have := enc_inj hc (by omega : c' < N) h
              omega
            · intro h
              have := enc_inj hc hmN h
              omega
      · by_cases hc_m : c = m
        · subst hc_m
          rcases Nat.lt_or_ge c r with hr_gt | hr_lt
          · rw [transposeInner_snd N c r (outerAux N c g) hmN hr_gt hr]
            rw [ih (by omega) c r hc hr]
            have : ¬((c < c ∨ r < c) ∧ c ≠ r) := by omega
            rw [if_neg this, if_pos (by omega)]
          · have hrlt : r < c := by omega
            rw [transposeInner_untouched N c (outerAux N c g) _ (fun c' h1 h2 => ?_)]
            · rw [ih (by omega) r c hr hc]
              rw [if_pos (by omega), if_pos (by omega)]
            · constructor
              · intro h
                have := enc_inj hc (by omega : c' < N) h
                omega
              · intro h
                have := enc_inj hc hmN h
                omega
        · rw [transposeInner_untouched N m (outerAux N m g) _ (fun c' h1 h2 => ?_)]
          · rw [ih (by omega) r c hr hc]
            by_cases hcond : (r < m ∨ c < m)
            · rw [if_pos ⟨hcond, hrc⟩, if_pos ⟨by omega, hrc⟩]
            · rw [if_neg (by omega), if_neg (by omega)]
          · constructor
            · intro h
              have := enc_inj hc (by omega : c' < N) h
              omega
            · intro h
              have := enc_inj hc hmN h
              omega

/-- C7: for every square matrix buffer of any dimension `N ≥ 1` (odd or even)
with row-major element map `(r, c) ↦ r*N + c`, the in-place
`Matrix::Transpose` leaves the buffer with `M(r, c)` equal to the previous
`M(c, r)` for all `r, c < N` — each symmetric off-diagonal pair is swapped
exactly once and the diagonal is untouched. -/
theorem transposeInPlace_correct {T : Type} (N : ℕ) (g : ℕ → T) (r c : ℕ)
    (hr : r < N) (hc : c < N) :
    transposeInPlace N g (r * N + c) = g (c * N + r) := by
  have h := outer_spec N g (N - 1) le_rfl r c hr hc
  rw [transposeInPlace]
  rw [h]
  by_cases hcond : (r < N - 1 ∨ c < N - 1) ∧ r ≠ c
  · rw [if_pos hcond]
  · rw [if_neg hcond]
    have : r = c := by omega
    subst this
    rfl

/-- C7 witness: the 3x3 buffer holding `0..8` in row-major order; entry (0,1)
of the transposed buffer is the previous entry (1,0), i.e. the value 3. -/
theorem transposeInPlace_correct_witness :
    0 < 3 ∧ 1 < 3 ∧
      transposeInPlace 3 (fun k => k) (0 * 3 + 1) = (fun k : ℕ => k) (1 * 3 + 0) ∧
      transposeInPlace 3 (fun k => k) 1 = 3 :=
  ⟨by decide, by decide,
    transposeInPlace_correct 3 (fun k => k) 0 1 (by decide) (by decide),
    by decide⟩

end Gs
